import Mathlib

/-!
Verification of the VAD segmenter and micro-batch scheduler of
parakeet-mlx-fastapi, as a shallow embedding of
`parakeet_service/streaming_vad.py`, `parakeet_service/chunker.py` and
`parakeet_service/batchworker.py`.

Audio is modelled at the int16-sample level: a pushed frame is a
`List Int` of samples.  The float32 round-trip in `_f32_to_pcm16`
(`np.clip(x / 32768 * 32768, -32768, 32767).astype(np.int16)`) is exact on
int16 inputs (division and multiplication by the power of two 32768 are
exact in float32 for this range), so the accumulated buffer holds the
original samples and one stored sample corresponds to two PCM bytes.

The external Silero `VADIterator` is an injected dependency; it is modelled
as an opaque state machine `VADModel` whose `step` may return the
`{"start": ...}` / `{"end": ...}` event dict, and whose `reset_states`
returns it to `init`.
-/

namespace Parakeet

/-- `SAMPLE_RATE` from streaming_vad.py. -/
def SAMPLE_RATE : Nat := 16000

/-- `WINDOW_SAMPLES` from streaming_vad.py (512 samples = 32 ms). -/
def WINDOW_SAMPLES : Nat := 512

/-- `MAX_SPEECH_MS` from streaming_vad.py (hard stop at 8 s). -/
def MAX_SPEECH_MS : Nat := 8000

/-- Event returned by the external `VADIterator` for one window:
a `{"start": ...}` or `{"end": ...}` dict, or `None`. -/
inductive VADEvent
  | vstart
  | vend
deriving DecidableEq

/-- The injected per-window VAD classifier (Silero `VADIterator`): an opaque
state machine; `reset_states()` returns the state to `init`. -/
structure VADModel (σ : Type) where
  init : σ
  step : σ → List Int → σ × Option VADEvent

/-- A flushed segment: the wave container written by `_flush`
(`setnchannels(1)`, `setsampwidth(2)`, `setframerate(SAMPLE_RATE)`)
together with its PCM samples. -/
structure Segment where
  nchannels : Nat
  sampwidth : Nat
  framerate : Nat
  data : List Int
deriving DecidableEq

/-- The wav file `_flush` writes from an accumulated buffer. -/
def mkSegment (buf : List Int) : Segment := ⟨1, 2, SAMPLE_RATE, buf⟩

/-- Mutable state of a `StreamingVAD` instance: the `VADIterator` state,
`self.buffer` (as samples) and `self.speech_ms`. -/
structure SVState (σ : Type) where
  vadState : σ
  buffer : List Int
  speech_ms : Nat

/-- `StreamingVAD._flush`: an empty buffer yields nothing (and resets
nothing); otherwise the buffer is written as a wav segment, the buffer is
cleared, `speech_ms` is zeroed and the VAD state is reset (to `resetTo`,
instantiated with the model's initial state). -/
def SVState.flushTo (resetTo : σ) (st : SVState σ) : SVState σ × List Segment :=
  if st.buffer = [] then (st, [])
  else (⟨resetTo, [], 0⟩, [mkSegment st.buffer])

/-- The full 512-sample windows of `l` starting at offsets `0, 512, 1024, …`;
`n` is the number of full windows (`range(0, len, 512)` with the
`if len(window) < WINDOW_SAMPLES: break` cut). -/
def windowsFrom (l : List Int) : Nat → List (List Int)
  | 0 => []
  | n + 1 => l.take WINDOW_SAMPLES :: windowsFrom (l.drop WINDOW_SAMPLES) n

/-- The full windows of a pushed sample list; a trailing window shorter than
`WINDOW_SAMPLES` is not yielded. -/
def fullWindows (l : List Int) : List (List Int) :=
  windowsFrom l (l.length / WINDOW_SAMPLES)

/-- One iteration of the window loop of `StreamingVAD.feed`: classify the
window, append it to the buffer, add 32 ms, then flush on an `end` event,
or else on reaching `MAX_SPEECH_MS`. -/
def feedWindow (M : VADModel σ) (st : SVState σ) (w : List Int) :
    SVState σ × List Segment :=
  let s := M.step st.vadState w
  let st1 : SVState σ := ⟨s.1, st.buffer ++ w, st.speech_ms + 32⟩
  if s.2 = some VADEvent.vend then st1.flushTo M.init
  else if MAX_SPEECH_MS ≤ st1.speech_ms then st1.flushTo M.init
  else (st1, [])

/-- The window loop of `StreamingVAD.feed`, collecting flushed segments. -/
def feedLoop (M : VADModel σ) : SVState σ → List (List Int) → SVState σ × List Segment
  | st, [] => (st, [])
  | st, w :: ws =>
    let r1 := feedWindow M st w
    let r2 := feedLoop M r1.1 ws
    (r2.1, r1.2 ++ r2.2)

/-- `StreamingVAD.feed`: process the full 512-sample windows of the pushed
frame; trailing samples short of a full window are dropped by the `break`
(they are not stashed anywhere on `self`). -/
def feed (M : VADModel σ) (st : SVState σ) (frame : List Int) :
    SVState σ × List Segment :=
  feedLoop M st (fullWindows frame)

/-- The injected classifier when its per-window call may raise, modelled
with `Except`. -/
structure FallibleVAD (σ ε : Type) where
  init : σ
  step : σ → List Int → Except ε (σ × Option VADEvent)

/-- The window loop of `StreamingVAD.feed` with a classifier that may raise:
the call `self.vad(window)` is not guarded by any handler, so an exception
aborts the loop before the window is appended; mutations made for earlier
windows persist on `self`.  The third component records the escaped
exception, if any. -/
def feedLoopExn (M : FallibleVAD σ ε) : SVState σ → List (List Int) →
    SVState σ × List Segment × Option ε
  | st, [] => (st, [], none)
  | st, w :: ws =>
    match M.step st.vadState w with
    | .error e => (st, [], some e)
    | .ok s =>
      let st1 : SVState σ := ⟨s.1, st.buffer ++ w, st.speech_ms + 32⟩
      let r1 := if s.2 = some VADEvent.vend then st1.flushTo M.init
                else if MAX_SPEECH_MS ≤ st1.speech_ms then st1.flushTo M.init
                else (st1, [])
      let r2 := feedLoopExn M r1.1 ws
      (r2.1, r1.2 ++ r2.2.1, r2.2.2)

/-- `StreamingVAD.feed` with a classifier that may raise. -/
def feedExn (M : FallibleVAD σ ε) (st : SVState σ) (frame : List Int) :
    SVState σ × List Segment × Option ε :=
  feedLoopExn M st (fullWindows frame)

/-! Embedding of `chunker.py`, `vad_chunk_streaming`. -/

/-- `STRIPE_FRAMES` from chunker.py (2-second stripes). -/
def STRIPE_FRAMES : Nat := 32000

/-- `MAX_CHUNK_MS` from chunker.py (hard 60 s cap). -/
def MAX_CHUNK_MS : Nat := 60000

/-- Loop state of `vad_chunk_streaming`: the `vad_iter` state, `buf`,
`speech_ms` and the `paths` produced so far. -/
structure ChunkState (σ : Type) where
  vadState : σ
  buf : List Int
  speech_ms : Nat
  paths : List Segment

/-- One iteration of the window loop of `vad_chunk_streaming`: classify,
extend `buf`, add 32 ms, and flush into `paths` on an `end` event or on
reaching `MAX_CHUNK_MS` (the chunker's `_flush` does not reset `vad_iter`). -/
def chunkStep (M : VADModel σ) (st : ChunkState σ) (w : List Int) : ChunkState σ :=
  let s := M.step st.vadState w
  let buf1 := st.buf ++ w
  let ms1 := st.speech_ms + 32
  if s.2 = some VADEvent.vend ∨ MAX_CHUNK_MS ≤ ms1 then
    ⟨s.1, [], 0, st.paths ++ [mkSegment buf1]⟩
  else ⟨s.1, buf1, ms1, st.paths⟩

/-- The per-stripe window loop of `vad_chunk_streaming`. -/
def chunkLoop (M : VADModel σ) : ChunkState σ → List (List Int) → ChunkState σ
  | st, [] => st
  | st, w :: ws => chunkLoop M (chunkStep M st w) ws

/-- The stripes read by `snd.read(frames=STRIPE_FRAMES, ...)`: successive
blocks of up to `STRIPE_FRAMES` samples until the file is exhausted; `n` is
a fuel bound on the number of reads. -/
def stripesFrom (l : List Int) : Nat → List (List Int)
  | 0 => []
  | n + 1 =>
    if l = [] then []
    else l.take STRIPE_FRAMES :: stripesFrom (l.drop STRIPE_FRAMES) n

/-- The stripes of a finite audio file. -/
def stripes (l : List Int) : List (List Int) :=
  stripesFrom l (l.length / STRIPE_FRAMES + 1)

/-- The stripe loop of `vad_chunk_streaming`: each stripe is cut into full
512-sample windows (a stripe's trailing partial window is dropped by the
`break`) and fed through the window loop. -/
def stripeLoop (M : VADModel σ) : ChunkState σ → List (List Int) → ChunkState σ
  | st, [] => st
  | st, s :: ss => stripeLoop M (chunkLoop M st (fullWindows s)) ss

/-- `vad_chunk_streaming`: stripe the file, run the VAD window loop, and
flush any non-empty residual buffer after the last stripe
(`if buf: paths.append(_flush(buf))`). -/
def vadChunkStreaming (M : VADModel σ) (audio : List Int) : List Segment :=
  let fin := stripeLoop M ⟨M.init, [], 0, []⟩ (stripes audio)
  if fin.buf = [] then fin.paths else fin.paths ++ [mkSegment fin.buf]

/-! Embedding of `batchworker.py`. -/

/-- Default `max_batch` of `batch_worker`. -/
def MAX_BATCH : Nat := 4

/-- Default `batch_ms` of `batch_worker` (the 15 ms batch window). -/
def BATCH_MS : Nat := 15

/-- Outcome of one iteration of the gathering loop of `batch_worker`,
abstracting the monotonic clock and the queue:
`expired` is the `timeout <= 0` check firing, `arrived x` is `wait_for`
returning the next queue item in time, `timedOut` is `wait_for` raising
`TimeoutError`. -/
inductive GatherEvent (β : Type)
  | expired
  | arrived (x : β)
  | timedOut

/-- The micro-batch gathering loop of `batch_worker`: while the batch is
below `maxBatch`, consult the clock/queue; an arrival is materialized with
`_as_path` (abstracted as `asPath`) and appended, a timeout or an expired
deadline stops collection.  An exhausted event script means no further
arrival before the deadline. -/
def gatherLoop (asPath : β → α) (maxBatch : Nat) :
    List α → List (GatherEvent β) → List α
  | batch, [] => batch
  | batch, e :: evs =>
    if maxBatch ≤ batch.length then batch
    else
      match e with
      | .arrived x => gatherLoop asPath maxBatch (batch ++ [asPath x]) evs
      | .expired => batch
      | .timedOut => batch

/-- Batch formation in `batch_worker`: the blocking `get` supplies `first`,
then the gathering loop runs under the deadline. -/
def formBatch (asPath : β → α) (maxBatch : Nat) (first : β)
    (evs : List (GatherEvent β)) : List α :=
  gatherLoop asPath maxBatch [asPath first] evs

/-- The items that arrived in an event script, in order. -/
def arrivals : List (GatherEvent β) → List β
  | [] => []
  | .arrived x :: evs => x :: arrivals evs
  | .expired :: evs => arrivals evs
  | .timedOut :: evs => arrivals evs

/-- The per-item transcription loop in `batch_worker`'s `try` block:
`model.transcribe(file_path)` is called on each file of the batch in order,
`outs.append(result)`; a raise aborts the loop and fails the whole batch. -/
def runBatch (f : α → Except ε τ) : List α → Except ε (List τ)
  | [] => .ok []
  | x :: xs =>
    match f x with
    | .error e => .error e
    | .ok t =>
      match runBatch f xs with
      | .error e => .error e
      | .ok ts => .ok (t :: ts)

/-- The arguments actually passed to `model.transcribe` by that loop: one
call per item, in batch order, stopping after the first raise. -/
def inferCalls (f : α → Except ε τ) : List α → List α
  | [] => []
  | x :: xs =>
    match f x with
    | .error _ => [x]
    | .ok _ => x :: inferCalls f xs

/-- `results[p] = text` for each pair, in order (dict assignment on the
shared `results` mapping, modelled as a function). -/
def storeResults [DecidableEq α] (m : α → Option τ) :
    List (α × τ) → (α → Option τ)
  | [] => m
  | (k, v) :: rest => storeResults (fun x => if x = k then some v else m x) rest

/-- The observable effects of one dispatch in `batch_worker`. -/
structure DispatchResult (α τ : Type) where
  results : α → Option τ
  taskDoneCalls : Nat
  notified : Bool

/-- One dispatch of `batch_worker`: on an exception from the transcription
loop, `task_done()` is called once per item and the loop `continue`s —
nothing is stored in `results` and `condition.notify_all()` is not reached;
on success, `results[p] = text` per `zip(batch, outs)` pair, `task_done()`
per pair, then `notify_all()`. -/
def dispatchBatch [DecidableEq α] (f : α → Except ε τ) (batch : List α)
    (m : α → Option τ) : DispatchResult α τ :=
  match runBatch f batch with
  | .error _ => ⟨m, batch.length, false⟩
  | .ok outs => ⟨storeResults m (batch.zip outs), (batch.zip outs).length, true⟩

/-- Modelled from the spec: the Result Channel consumer `await_result`,
which is absent from src/ (only the producer side, `results` and
`condition`, exists there) — "upon wakeup, atomically drain (read and
remove) every entry whose identity it is responsible for". -/
def awaitResult {α τ : Type} [DecidableEq α] (m : α → Option τ) (k : α) :
    Option τ × (α → Option τ) :=
  match m k with
  | none => (none, m)
  | some v => (some v, fun x => if x = k then none else m x)

/-! Concrete classifier instances used to evaluate the embedding on
explicit inputs. -/

/-- A classifier that reports silence on every window (never any event). -/
def constNone : VADModel Unit := ⟨(), fun s _ => (s, none)⟩

/-- A classifier that reports a trailing-silence `end` event on every
window. -/
def constEnd : VADModel Unit := ⟨(), fun s _ => (s, some VADEvent.vend)⟩

/-- A classifier that enters speech on the first window and never leaves
it: a `start` event once, then mid-speech forever (state = triggered). -/
def startOnly : VADModel Bool :=
  ⟨false, fun s _ => (true, if s then none else some VADEvent.vstart)⟩

/-- A classifier whose per-window call always raises. -/
def failVAD : FallibleVAD Unit Unit := ⟨(), fun _ _ => .error ()⟩

/-- Invariant of a `StreamingVAD` instance between `feed` calls: two PCM
bytes per buffered sample and 1024 bytes per counted 32 ms window, so the
buffer holds exactly `32 * speech_ms` bytes; `speech_ms` is a multiple of
32 and stays below the hard ceiling. -/
def InvSV (st : SVState σ) : Prop :=
  2 * st.buffer.length = 32 * st.speech_ms
  ∧ st.speech_ms < MAX_SPEECH_MS
  ∧ 32 ∣ st.speech_ms

set_option maxRecDepth 40000

/-! Helper lemmas. -/

theorem windowsFrom_mem_length :
    ∀ (n : Nat) (l w : List Int), n * WINDOW_SAMPLES ≤ l.length →
      w ∈ windowsFrom l n → w.length = WINDOW_SAMPLES := by
  intro n
  induction n with
  | zero => intro l w _ hmem; simp [windowsFrom] at hmem
  | succ n ih =>
    intro l w hn hmem
    rw [windowsFrom] at hmem
    rcases List.mem_cons.mp hmem with h | h
    · subst h
      rw [List.length_take]
      simp only [WINDOW_SAMPLES] at hn ⊢
      omega
    · refine ih (l.drop WINDOW_SAMPLES) w ?_ h
      rw [List.length_drop]
      simp only [WINDOW_SAMPLES] at hn ⊢
      omega

theorem fullWindows_mem_length {l w : List Int} (h : w ∈ fullWindows l) :
    w.length = WINDOW_SAMPLES :=
  windowsFrom_mem_length (l.length / WINDOW_SAMPLES) l w
    (Nat.div_mul_le_self l.length WINDOW_SAMPLES) h

theorem fullWindows_single {w : List Int} (hw : w.length = WINDOW_SAMPLES) :
    fullWindows w = [w] := by
  have h1 : w.length / WINDOW_SAMPLES = 1 := by
    rw [hw]; simp [WINDOW_SAMPLES]
  rw [fullWindows, h1, windowsFrom, windowsFrom, ← hw, List.take_length]

theorem feed_single (M : VADModel σ) (st : SVState σ) {w : List Int}
    (hw : w.length = WINDOW_SAMPLES) :
    feed M st w = ((feedWindow M st w).1, (feedWindow M st w).2) := by
  rw [feed, fullWindows_single hw]
  simp [feedLoop]

theorem append_window_ne_nil {b w : List Int} (hw : w.length = WINDOW_SAMPLES) :
    b ++ w ≠ [] := by
  have : w ≠ [] := by
    intro h; rw [h] at hw; simp [WINDOW_SAMPLES] at hw
  simp [this]

/-! Claims about `batch_worker`'s dispatch. -/

/-- Claim C1 (code evaluated at the failing input): when the transcription
of a batch raises, `batch_worker` calls `task_done` once per item but
stores no failure outcome in `results` and never reaches
`condition.notify_all()` — the item's submitter is never woken. -/
theorem dispatch_failure_drops_silently :
    (dispatchBatch (fun _ : Nat => (Except.error "boom" : Except String String)) [7]
        (fun _ => none)).taskDoneCalls = 1
    ∧ (dispatchBatch (fun _ : Nat => (Except.error "boom" : Except String String)) [7]
        (fun _ => none)).notified = false
    ∧ (dispatchBatch (fun _ : Nat => (Except.error "boom" : Except String String)) [7]
        (fun _ => none)).results 7 = none :=
  ⟨rfl, rfl, rfl⟩

/-- Claim C2, counterexample: for a 2-item batch whose transcriptions all
succeed, `model.transcribe` is invoked twice — once per item, each call on
a single item — not once with the whole batch. -/
theorem per_item_calls_cex :
    inferCalls (fun _ : Nat => (Except.ok 0 : Except Unit Nat)) [10, 20] = [10, 20]
    ∧ (inferCalls (fun _ : Nat => (Except.ok 0 : Except Unit Nat)) [10, 20]).length = 2 :=
  ⟨rfl, rfl⟩

/-- Claim C2 as amended: the inference function is invoked once per item of
the batch, in batch order (`len(batch)` single-item calls, not one
whole-batch call), and on success output `i` corresponds to input `i`. -/
theorem runBatch_per_item_positional {α ε τ : Type} (f : α → Except ε τ)
    (batch : List α) (hf : ∀ x ∈ batch, ∃ t, f x = Except.ok t) :
    inferCalls f batch = batch
    ∧ ∃ outs, runBatch f batch = Except.ok outs
        ∧ outs.length = batch.length
        ∧ ∀ i, (hi : i < batch.length) → (hi2 : i < outs.length) →
            f (batch.get ⟨i, hi⟩) = Except.ok (outs.get ⟨i, hi2⟩) := by
  induction batch with
  | nil =>
    refine ⟨rfl, [], rfl, rfl, ?_⟩
    intro i hi
    simp at hi
  | cons x xs ih =>
    obtain ⟨t, ht⟩ := hf x (List.mem_cons_self x xs)
    obtain ⟨h1, outs, h2, h3, h4⟩ := ih (fun y hy => hf y (List.mem_cons_of_mem x hy))
    refine ⟨?_, t :: outs, ?_, ?_, ?_⟩
    · rw [inferCalls, ht, h1]
    · rw [runBatch, ht, h2]
    · simp [h3]
    · intro i hi hi2
      cases i with
      | zero => simpa using ht
      | succ j =>
        have hj : j < xs.length := by simpa using hi
        have hj2 : j < outs.length := by simpa using hi2
        simpa using h4 j hj hj2

/-- Witness for the amended Claim C2 at a concrete 2-item batch. -/
theorem runBatch_per_item_positional_w :
    (∀ x ∈ [10, 20], ∃ t, (fun _ : Nat => (Except.ok 7 : Except Unit Nat)) x = Except.ok t)
    ∧ inferCalls (fun _ : Nat => (Except.ok 7 : Except Unit Nat)) [10, 20] = [10, 20]
    ∧ ∃ outs, runBatch (fun _ : Nat => (Except.ok 7 : Except Unit Nat)) [10, 20] = Except.ok outs
        ∧ outs.length = ([10, 20] : List Nat).length
        ∧ ∀ i, (hi : i < ([10, 20] : List Nat).length) → (hi2 : i < outs.length) →
            (fun _ : Nat => (Except.ok 7 : Except Unit Nat)) (([10, 20] : List Nat).get ⟨i, hi⟩)
              = Except.ok (outs.get ⟨i, hi2⟩) :=
  have hf : ∀ x ∈ [10, 20], ∃ t, (fun _ : Nat => (Except.ok 7 : Except Unit Nat)) x = Except.ok t :=
    fun _ _ => ⟨7, rfl⟩
  have h := runBatch_per_item_positional (fun _ : Nat => (Except.ok 7 : Except Unit Nat)) [10, 20] hf
  ⟨hf, h.1, h.2⟩

/-! Claim C5 — the Result Channel. -/

/-- Claim C5: the (spec-modelled) reader atomically removes a consumed
entry from the shared `results` mapping, so a stored result is delivered
exactly once — a second read of the same key finds nothing, across any
readers. -/
theorem awaitResult_at_most_once {α τ : Type} [DecidableEq α]
    (m : α → Option τ) (k : α) (v : τ) (h : m k = some v) :
    (awaitResult m k).1 = some v
    ∧ (awaitResult m k).2 k = none
    ∧ (awaitResult (awaitResult m k).2 k).1 = none := by
  simp [awaitResult, h]

/-- Witness for Claim C5 at a concrete mapping and key. -/
theorem awaitResult_at_most_once_w :
    (fun x : Nat => if x = 5 then some "txt" else none) 5 = some "txt"
    ∧ ((awaitResult (fun x : Nat => if x = 5 then some "txt" else none) 5).1 = some "txt"
      ∧ (awaitResult (fun x : Nat => if x = 5 then some "txt" else none) 5).2 5 = none
      ∧ (awaitResult (awaitResult (fun x : Nat => if x = 5 then some "txt" else none) 5).2 5).1
          = none) :=
  ⟨rfl, awaitResult_at_most_once (fun x : Nat => if x = 5 then some "txt" else none) 5 "txt" rfl⟩

/-! Claim C7 — classifier failure. -/

/-- Claim C7, counterexample: a raising classifier is not degraded to
silence — the exception escapes `feed` (third component records the raise),
so classifier errors are surfaced past the segmenter. -/
theorem classifier_error_escapes_cex :
    feedExn failVAD ⟨(), [], 0⟩ (List.replicate 512 0) = (⟨(), [], 0⟩, [], some ())
    ∧ (feedExn failVAD ⟨(), [], 0⟩ (List.replicate 512 0)).2.2 ≠ none :=
  ⟨rfl, by decide⟩

/-- Claim C7 as amended: the per-window classifier call in `feed` is not
guarded, so a classifier exception propagates out of `feed`; the failing
frame is not appended and is not treated as silence. -/
theorem feedExn_propagates {σ ε : Type} (M : FallibleVAD σ ε) (st : SVState σ)
    (w : List Int) (e : ε) (hw : w.length = WINDOW_SAMPLES)
    (he : M.step st.vadState w = .error e) :
    feedExn M st w = (st, [], some e) := by
  rw [feedExn, fullWindows_single hw]
  simp [feedLoopExn, he]

/-- Witness for the amended Claim C7 with the always-raising classifier. -/
theorem feedExn_propagates_w :
    (List.replicate 512 (0 : Int)).length = WINDOW_SAMPLES
    ∧ failVAD.step (() : Unit) (List.replicate 512 0) = .error ()
    ∧ feedExn failVAD ⟨(), [], 0⟩ (List.replicate 512 0) = (⟨(), [], 0⟩, [], some ()) :=
  ⟨by decide, rfl,
    feedExn_propagates failVAD ⟨(), [], 0⟩ (List.replicate 512 0) () (by decide) rfl⟩

/-! Claim C8 — partial windows. -/

/-- Claim C8 (code evaluated at the failing input): two successive `feed`
calls of 320 samples (20 ms, the frame size the class docstring
prescribes) process nothing — the trailing partial window of each call is
discarded, not held back: `SVState` (the whole of `self`'s state) retains
no leftover samples, so the 640 pushed samples are lost. -/
theorem feed_drops_trailing_samples :
    fullWindows (List.replicate 320 0) = []
    ∧ feed constNone ⟨(), [], 0⟩ (List.replicate 320 0) = (⟨(), [], 0⟩, [])
    ∧ feed constNone (feed constNone ⟨(), [], 0⟩ (List.replicate 320 0)).1
        (List.replicate 320 0) = (⟨(), [], 0⟩, []) :=
  ⟨by decide, rfl, rfl⟩

/-! Claim C3 — streaming flush rule. -/

/-- Claim C3: for a pushed full window, `feed` counts 32 ms
unconditionally, and flushes exactly when the classifier returned an `end`
event or the counted time reaches `MAX_SPEECH_MS`; on flush the buffer is
materialized as a mono (`nchannels = 1`) 16-bit (`sampwidth = 2`)
16 kHz container, the accumulator and `speech_ms` are reset to empty/zero,
and the VAD state is reset to its initial state. -/
theorem feed_window_flush_rule (M : VADModel σ) (st : SVState σ) (w : List Int)
    (hw : w.length = WINDOW_SAMPLES) :
    ((M.step st.vadState w).2 = some VADEvent.vend ∨ MAX_SPEECH_MS ≤ st.speech_ms + 32 →
      feed M st w = (⟨M.init, [], 0⟩, [mkSegment (st.buffer ++ w)])
      ∧ (mkSegment (st.buffer ++ w)).nchannels = 1
      ∧ (mkSegment (st.buffer ++ w)).sampwidth = 2
      ∧ (mkSegment (st.buffer ++ w)).framerate = SAMPLE_RATE)
    ∧ (¬((M.step st.vadState w).2 = some VADEvent.vend ∨ MAX_SPEECH_MS ≤ st.speech_ms + 32) →
      feed M st w = (⟨(M.step st.vadState w).1, st.buffer ++ w, st.speech_ms + 32⟩, [])) := by
  have hbw : st.buffer ++ w ≠ [] := append_window_ne_nil hw
  rw [feed_single M st hw]
  by_cases h1 : (M.step st.vadState w).2 = some VADEvent.vend
  · refine ⟨fun _ => ?_, fun hc => absurd (Or.inl h1) hc⟩
    simp [feedWindow, SVState.flushTo, h1, hbw, mkSegment]
  · by_cases h2 : MAX_SPEECH_MS ≤ st.speech_ms + 32
    · refine ⟨fun _ => ?_, fun hc => absurd (Or.inr h2) hc⟩
      simp [feedWindow, SVState.flushTo, h1, h2, hbw, mkSegment]
    · refine ⟨fun hc => ?_, fun _ => ?_⟩
      · rcases hc with hc | hc
        · exact absurd hc h1
        · exact absurd hc h2
      · simp [feedWindow, SVState.flushTo, h1, h2]

/-- Witness for Claim C3: the always-`end` classifier flushes the single
pushed window. -/
theorem feed_window_flush_rule_w :
    (List.replicate 512 (0 : Int)).length = WINDOW_SAMPLES
    ∧ (constEnd.step (() : Unit) (List.replicate 512 0)).2 = some VADEvent.vend
    ∧ feed constEnd ⟨(), [], 0⟩ (List.replicate 512 0)
        = (⟨(), [], 0⟩, [mkSegment (([] : List Int) ++ List.replicate 512 0)]) :=
  ⟨by decide, rfl,
    ((feed_window_flush_rule constEnd ⟨(), [], 0⟩ (List.replicate 512 0)
        (by decide)).1 (Or.inl rfl)).1⟩

/-! Claim C6 — batch size bounds. -/

theorem gatherLoop_spec {α β : Type} (asPath : β → α) (maxBatch : Nat) :
    ∀ (evs : List (GatherEvent β)) (batch : List α),
      (∃ k, gatherLoop asPath maxBatch batch evs
          = batch ++ ((arrivals evs).take k).map asPath)
      ∧ (batch.length ≤ maxBatch →
          (gatherLoop asPath maxBatch batch evs).length ≤ maxBatch) := by
  intro evs
  induction evs with
  | nil =>
    intro batch
    exact ⟨⟨0, by simp [gatherLoop]⟩, fun h => by simpa [gatherLoop] using h⟩
  | cons e evs ih =>
    intro batch
    by_cases hlen : maxBatch ≤ batch.length
    · refine ⟨⟨0, ?_⟩, fun h => ?_⟩
      · cases e <;> simp [gatherLoop, hlen]
      · cases e <;> simpa [gatherLoop, hlen] using h
    · cases e with
      | arrived x =>
        obtain ⟨⟨k, hk⟩, hb⟩ := ih (batch ++ [asPath x])
        refine ⟨⟨k + 1, ?_⟩, fun h => ?_⟩
        · rw [gatherLoop]
          simp only [hlen, if_neg (by omega : ¬maxBatch ≤ batch.length)]
          rw [hk, arrivals]
          simp [List.take_succ_cons]
        · rw [gatherLoop]
          simp only [if_neg (by omega : ¬maxBatch ≤ batch.length)]
          refine hb ?_
          simp only [List.length_append, List.length_cons, List.length_nil]
          omega
      | expired =>
        refine ⟨⟨0, by rw [gatherLoop]; simp [hlen]⟩, fun h => ?_⟩
        rw [gatherLoop]
        simpa [hlen] using h
      | timedOut =>
        refine ⟨⟨0, by rw [gatherLoop]; simp [hlen]⟩, fun h => ?_⟩
        rw [gatherLoop]
        simpa [hlen] using h

/-- Claim C6: a formed batch is the first (blocking-`get`) item followed by
a prefix of the items that arrived before collection stopped, so it always
holds at least one item and never more than `max_batch`. -/
theorem batch_size_bounds {α β : Type} (asPath : β → α) (maxBatch : Nat)
    (first : β) (evs : List (GatherEvent β)) (hmb : 1 ≤ maxBatch) :
    1 ≤ (formBatch asPath maxBatch first evs).length
    ∧ (formBatch asPath maxBatch first evs).length ≤ maxBatch
    ∧ ∃ k, formBatch asPath maxBatch first evs
        = asPath first :: ((arrivals evs).take k).map asPath := by
  obtain ⟨⟨k, hk⟩, hb⟩ := gatherLoop_spec asPath maxBatch evs [asPath first]
  rw [formBatch]
  refine ⟨?_, hb (by simpa using hmb), k, by simpa using hk⟩
  rw [hk]
  simp

/-- Witness for Claim C6: six items within the window with `max_batch = 4`
give a first batch of exactly the first four items. -/
theorem batch_size_bounds_w :
    1 ≤ MAX_BATCH
    ∧ (1 ≤ (formBatch (fun n : Nat => n) MAX_BATCH 0
          [.arrived 1, .arrived 2, .arrived 3, .arrived 4, .arrived 5]).length
      ∧ (formBatch (fun n : Nat => n) MAX_BATCH 0
          [.arrived 1, .arrived 2, .arrived 3, .arrived 4, .arrived 5]).length ≤ MAX_BATCH
      ∧ ∃ k, formBatch (fun n : Nat => n) MAX_BATCH 0
            [.arrived 1, .arrived 2, .arrived 3, .arrived 4, .arrived 5]
          = 0 :: ((arrivals [.arrived 1, .arrived 2, .arrived 3, .arrived 4,
              .arrived 5]).take k).map (fun n : Nat => n)) :=
  ⟨by decide,
    batch_size_bounds (fun n : Nat => n) MAX_BATCH 0
      [.arrived 1, .arrived 2, .arrived 3, .arrived 4, .arrived 5] (by decide)⟩

/-! Claim C4 — no mid-speech flush, except the chunker's EOF flush. -/

theorem append_one_ne_self (l : List Segment) (a : Segment) : l ++ [a] ≠ l := by
  intro h
  have := congrArg List.length h
  simp at this

/-- Claim C4, counterexample: one full window of audio on which the
classifier reports speech onset and never an `end` event — the final VAD
state is still triggered (mid-speech), only 32 ms accumulated (far below
the 60 s cap), yet `vad_chunk_streaming` flushes a segment: the residual
buffer is flushed at end of input without a prior `End` and without the
hard ceiling. -/
theorem chunk_eof_midspeech_cex :
    (startOnly.step startOnly.init (List.replicate 512 0)).2 = some VADEvent.vstart
    ∧ (startOnly.step true (List.replicate 512 0)).2 = none
    ∧ (stripeLoop startOnly ⟨startOnly.init, [], 0, []⟩
        (stripes (List.replicate 512 0))).vadState = true
    ∧ (stripeLoop startOnly ⟨startOnly.init, [], 0, []⟩
        (stripes (List.replicate 512 0))).speech_ms < MAX_CHUNK_MS
    ∧ vadChunkStreaming startOnly (List.replicate 512 0)
        = [mkSegment (List.replicate 512 0)] :=
  ⟨rfl, rfl, by decide, by decide, by decide⟩

/-- Claim C4 as amended: inside the stream, a flush happens only on an
`end` event or on the hard ceiling — both in the streaming `feed` window
step and in the chunker's window loop — but when the input ends, the
offline chunker unconditionally flushes any non-empty residual buffer,
even mid-speech. -/
theorem chunk_flush_rule (M : VADModel σ) (st : ChunkState σ) (sv : SVState σ)
    (w audio : List Int) (hw : w.length = WINDOW_SAMPLES)
    (hbuf : (stripeLoop M ⟨M.init, [], 0, []⟩ (stripes audio)).buf ≠ []) :
    ((chunkStep M st w).paths ≠ st.paths ↔
      ((M.step st.vadState w).2 = some VADEvent.vend ∨ MAX_CHUNK_MS ≤ st.speech_ms + 32))
    ∧ ((feedWindow M sv w).2 ≠ [] ↔
      ((M.step sv.vadState w).2 = some VADEvent.vend ∨ MAX_SPEECH_MS ≤ sv.speech_ms + 32))
    ∧ vadChunkStreaming M audio
        = (stripeLoop M ⟨M.init, [], 0, []⟩ (stripes audio)).paths
          ++ [mkSegment (stripeLoop M ⟨M.init, [], 0, []⟩ (stripes audio)).buf] := by
  refine ⟨?_, ?_, ?_⟩
  · by_cases hc : (M.step st.vadState w).2 = some VADEvent.vend ∨ MAX_CHUNK_MS ≤ st.speech_ms + 32
    · have hps : (chunkStep M st w).paths = st.paths ++ [mkSegment (st.buf ++ w)] := by
        simp only [chunkStep]
        rw [if_pos hc]
      rw [hps]
      exact iff_of_true (append_one_ne_self st.paths (mkSegment (st.buf ++ w))) hc
    · have hps : (chunkStep M st w).paths = st.paths := by
        simp only [chunkStep]
        rw [if_neg hc]
      exact iff_of_false (fun hne => hne hps) hc
  · have hbw : sv.buffer ++ w ≠ [] := append_window_ne_nil hw
    by_cases h1 : (M.step sv.vadState w).2 = some VADEvent.vend
    · simp [feedWindow, SVState.flushTo, h1, hbw]
    · by_cases h2 : MAX_SPEECH_MS ≤ sv.speech_ms + 32
      · simp [feedWindow, SVState.flushTo, h1, h2, hbw]
      · simp [feedWindow, SVState.flushTo, h1, h2]
  · rw [vadChunkStreaming]
    simp [hbuf]

/-- Witness for the amended Claim C4: the mid-speech EOF flush of the
counterexample input is exactly the residual-buffer flush. -/
theorem chunk_flush_rule_w :
    (List.replicate 512 (0 : Int)).length = WINDOW_SAMPLES
    ∧ (stripeLoop startOnly ⟨false, [], 0, []⟩ (stripes (List.replicate 512 0))).buf ≠ []
    ∧ vadChunkStreaming startOnly (List.replicate 512 0)
        = (stripeLoop startOnly ⟨false, [], 0, []⟩ (stripes (List.replicate 512 0))).paths
          ++ [mkSegment (stripeLoop startOnly ⟨false, [], 0, []⟩
              (stripes (List.replicate 512 0))).buf] :=
  ⟨by decide, by decide,
    (chunk_flush_rule startOnly ⟨false, [], 0, []⟩ ⟨false, [], 0⟩
      (List.replicate 512 0) (List.replicate 512 0) (by decide) (by decide)).2.2⟩

/-! Claim C9 — all-silence input to the offline segmenter. -/

/-- Claim C9, counterexample: 512 samples of audio on which the classifier
never reports any event (all silence) yield one chunk — the unconditional
EOF flush of the silently accumulated buffer — not an empty list. -/
theorem silence_audio_chunk_cex :
    (constNone.step () (List.replicate 512 0)).2 = none
    ∧ vadChunkStreaming constNone (List.replicate 512 0)
        = [mkSegment (List.replicate 512 0)]
    ∧ vadChunkStreaming constNone (List.replicate 512 0) ≠ [] :=
  ⟨rfl, by decide, by decide⟩

theorem stripes_small {l : List Int} (h0 : l ≠ []) (h1 : l.length ≤ STRIPE_FRAMES) :
    stripes l = [l] := by
  rcases lt_or_eq_of_le h1 with h | h
  · rw [stripes, Nat.div_eq_of_lt h, stripesFrom]
    rw [if_neg h0, List.take_of_length_le (le_of_lt h)]
    rfl
  · rw [stripes, h, Nat.div_self (by norm_num [STRIPE_FRAMES])]
    rw [stripesFrom, if_neg h0, List.take_of_length_le (le_of_eq h)]
    rw [List.drop_eq_nil_of_le (le_of_eq h)]
    rfl

theorem windowsFrom_replicate :
    ∀ m : Nat, windowsFrom (List.replicate (WINDOW_SAMPLES * m) (0 : Int)) m
      = List.replicate m (List.replicate WINDOW_SAMPLES 0) := by
  intro m
  induction m with
  | zero => rfl
  | succ k ih =>
    rw [windowsFrom, List.take_replicate, List.drop_replicate]
    have h1 : min WINDOW_SAMPLES (WINDOW_SAMPLES * (k + 1)) = WINDOW_SAMPLES := by
      simp only [WINDOW_SAMPLES]
      omega
    have h2 : WINDOW_SAMPLES * (k + 1) - WINDOW_SAMPLES = WINDOW_SAMPLES * k := by
      simp only [WINDOW_SAMPLES]
      omega
    rw [h1, h2, ih, List.replicate_succ]

theorem fullWindows_replicate (n : Nat) :
    fullWindows (List.replicate (WINDOW_SAMPLES * n) (0 : Int))
      = List.replicate n (List.replicate WINDOW_SAMPLES 0) := by
  have hdiv : (List.replicate (WINDOW_SAMPLES * n) (0 : Int)).length / WINDOW_SAMPLES = n := by
    rw [List.length_replicate]
    exact Nat.mul_div_cancel_left n (by norm_num [WINDOW_SAMPLES])
  rw [fullWindows, hdiv]
  exact windowsFrom_replicate n

theorem chunkLoop_no_flush (M : VADModel σ)
    (hM : ∀ s w, (M.step s w).2 ≠ some VADEvent.vend) :
    ∀ (ws : List (List Int)) (st : ChunkState σ),
      st.speech_ms + 32 * ws.length < MAX_CHUNK_MS →
      (chunkLoop M st ws).paths = st.paths
      ∧ (chunkLoop M st ws).buf = st.buf ++ ws.flatten
      ∧ (chunkLoop M st ws).speech_ms = st.speech_ms + 32 * ws.length := by
  intro ws
  induction ws with
  | nil => intro st _; simp [chunkLoop]
  | cons w ws ih =>
    intro st hms
    rw [List.length_cons] at hms
    have hcond : ¬((M.step st.vadState w).2 = some VADEvent.vend
        ∨ MAX_CHUNK_MS ≤ st.speech_ms + 32) := by
      push_neg
      exact ⟨hM st.vadState w, by omega⟩
    rw [chunkLoop, chunkStep]
    simp only [if_neg hcond]
    obtain ⟨hp, hb, hs⟩ := ih ⟨(M.step st.vadState w).1, st.buf ++ w, st.speech_ms + 32, st.paths⟩
      (by simp only; omega)
    refine ⟨hp, ?_, ?_⟩
    · rw [hb]; simp
    · rw [hs]; simp only [List.length_cons]; omega

/-- Claim C9 as amended: empty audio yields an empty chunk list (a valid,
non-error outcome), but non-empty all-silence audio — a classifier that
never reports an event — with at least one full window (up to one stripe)
yields exactly one chunk: the buffer is accumulated unconditionally and
flushed at end of input. -/
theorem silence_audio_chunks (M : VADModel σ) (n : Nat)
    (hM : ∀ s w, (M.step s w).2 ≠ some VADEvent.vend)
    (h1 : 1 ≤ n) (h62 : n ≤ 62) :
    vadChunkStreaming M [] = []
    ∧ (vadChunkStreaming M (List.replicate (WINDOW_SAMPLES * n) 0)).length = 1 := by
  constructor
  · rfl
  · have hne : List.replicate (WINDOW_SAMPLES * n) (0 : Int) ≠ [] := by
      simp [WINDOW_SAMPLES]
      omega
    have hlen : (List.replicate (WINDOW_SAMPLES * n) (0 : Int)).length ≤ STRIPE_FRAMES := by
      rw [List.length_replicate]
      simp only [WINDOW_SAMPLES, STRIPE_FRAMES]
      omega
    rw [vadChunkStreaming, stripes_small hne hlen]
    rw [stripeLoop, stripeLoop, fullWindows_replicate]
    obtain ⟨hp, hb, _⟩ := chunkLoop_no_flush M hM
      (List.replicate n (List.replicate WINDOW_SAMPLES 0)) ⟨M.init, [], 0, []⟩
      (by simp only [List.length_replicate, MAX_CHUNK_MS]; omega)
    have hbuf : (chunkLoop M ⟨M.init, [], 0, []⟩
        (List.replicate n (List.replicate WINDOW_SAMPLES 0))).buf ≠ [] := by
      rw [hb]
      simp only [List.nil_append]
      intro hj
      have := congrArg List.length hj
      rw [List.length_flatten] at this
      simp [WINDOW_SAMPLES] at this
      omega
    simp only [hbuf, if_neg hbuf, hp]
    simp

/-- Witness for the amended Claim C9 with the silent classifier and one
full window of audio. -/
theorem silence_audio_chunks_w :
    (∀ (s : Unit) (w : List Int), (constNone.step s w).2 ≠ some VADEvent.vend)
    ∧ vadChunkStreaming constNone [] = []
    ∧ (vadChunkStreaming constNone (List.replicate (WINDOW_SAMPLES * 1) 0)).length = 1 :=
  have hM : ∀ (s : Unit) (w : List Int), (constNone.step s w).2 ≠ some VADEvent.vend :=
    fun _ _ => by simp [constNone]
  have h := silence_audio_chunks constNone 1 hM (by decide) (by decide)
  ⟨hM, h.1, h.2⟩

/-! Claim C10 — the buffer/speech_ms invariant of the streaming segmenter. -/

theorem feedWindow_inv (M : VADModel σ) (st : SVState σ) (w : List Int)
    (hw : w.length = WINDOW_SAMPLES) (h : InvSV st) :
    InvSV (feedWindow M st w).1
    ∧ ∀ seg ∈ (feedWindow M st w).2, seg.data ≠ [] := by
  obtain ⟨hlen, hms, hdvd⟩ := h
  have hbw : st.buffer ++ w ≠ [] := append_window_ne_nil hw
  have hflush : InvSV (⟨M.init, [], 0⟩ : SVState σ) := by
    refine ⟨rfl, ?_, ⟨0, rfl⟩⟩
    norm_num [MAX_SPEECH_MS]
  by_cases h1 : (M.step st.vadState w).2 = some VADEvent.vend
  · constructor
    · simp [feedWindow, SVState.flushTo, h1, hbw, hflush]
    · simp only [feedWindow, SVState.flushTo]
      simp [h1, hbw, mkSegment]
  · by_cases h2 : MAX_SPEECH_MS ≤ st.speech_ms + 32
    · constructor
      · simp [feedWindow, SVState.flushTo, h1, h2, hbw, hflush]
      · simp only [feedWindow, SVState.flushTo]
        simp [h1, h2, hbw, mkSegment]
    · have hst : (feedWindow M st w).1
          = ⟨(M.step st.vadState w).1, st.buffer ++ w, st.speech_ms + 32⟩ := by
        simp only [feedWindow]
        rw [if_neg h1, if_neg h2]
      constructor
      · rw [hst]
        refine ⟨?_, ?_, ?_⟩
        · simp only [List.length_append, hw]
          simp only [WINDOW_SAMPLES] at *
          omega
        · simp only [MAX_SPEECH_MS] at *
          omega
        · exact Dvd.dvd.add hdvd (dvd_refl 32)
      · simp [feedWindow, h1, h2]

theorem feedLoop_inv (M : VADModel σ) :
    ∀ (ws : List (List Int)) (st : SVState σ),
      (∀ w ∈ ws, w.length = WINDOW_SAMPLES) → InvSV st →
      InvSV (feedLoop M st ws).1
      ∧ ∀ seg ∈ (feedLoop M st ws).2, seg.data ≠ [] := by
  intro ws
  induction ws with
  | nil => intro st _ h; exact ⟨h, by simp [feedLoop]⟩
  | cons w ws ih =>
    intro st hws h
    obtain ⟨h1, h2⟩ := feedWindow_inv M st w (hws w (List.mem_cons_self w ws)) h
    obtain ⟨h3, h4⟩ := ih (feedWindow M st w).1 (fun v hv => hws v (List.mem_cons_of_mem w hv)) h1
    refine ⟨h3, ?_⟩
    intro seg hseg
    rw [feedLoop] at hseg
    simp only [List.mem_append] at hseg
    rcases hseg with hs | hs
    · exact h2 seg hs
    · exact h4 seg hs

/-- Claim C10: if the buffer holds exactly 32 bytes per counted
millisecond (two bytes per sample) on entry, `feed` preserves that
invariant, every segment it materializes is non-empty, and — absent an
`end` event — a window's flush is forced precisely when the buffer reaches
8000 ms worth of bytes, i.e. 256000 bytes. -/
theorem feed_buffer_invariant (M : VADModel σ) (st : SVState σ) (frame : List Int)
    (h : InvSV st) :
    InvSV (feed M st frame).1
    ∧ (∀ seg ∈ (feed M st frame).2, seg.data ≠ [])
    ∧ (∀ w : List Int, w.length = WINDOW_SAMPLES →
        (M.step st.vadState w).2 ≠ some VADEvent.vend →
        ((feedWindow M st w).2 ≠ [] ↔ 2 * (st.buffer.length + w.length) = 256000)) := by
  obtain ⟨hi, hsegs⟩ := feedLoop_inv M (fullWindows frame) st
    (fun w hw => fullWindows_mem_length hw) h
  refine ⟨hi, hsegs, ?_⟩
  intro w hw h1
  obtain ⟨hlen, hms, hdvd⟩ := h
  have hbw : st.buffer ++ w ≠ [] := append_window_ne_nil hw
  by_cases h2 : MAX_SPEECH_MS ≤ st.speech_ms + 32
  · have hout : (feedWindow M st w).2 = [mkSegment (st.buffer ++ w)] := by
      simp [feedWindow, SVState.flushTo, h1, h2, hbw]
    rw [hout, hw]
    simp only [ne_eq, List.cons_ne_self, not_false_eq_true, true_iff]
    simp only [WINDOW_SAMPLES, MAX_SPEECH_MS] at *
    omega
  · have hout : (feedWindow M st w).2 = [] := by
      simp [feedWindow, SVState.flushTo, h1, h2]
    rw [hout, hw]
    simp only [ne_eq, not_true_eq_false, false_iff]
    simp only [WINDOW_SAMPLES, MAX_SPEECH_MS] at *
    omega

/-- Witness for Claim C10 at the empty initial state and one window of
audio under the silent classifier. -/
theorem feed_buffer_invariant_w :
    InvSV (⟨(), [], 0⟩ : SVState Unit)
    ∧ (InvSV (feed constNone ⟨(), [], 0⟩ (List.replicate 512 0)).1
      ∧ (∀ seg ∈ (feed constNone ⟨(), [], 0⟩ (List.replicate 512 0)).2, seg.data ≠ [])
      ∧ (∀ w : List Int, w.length = WINDOW_SAMPLES →
          (constNone.step (⟨(), [], 0⟩ : SVState Unit).vadState w).2 ≠ some VADEvent.vend →
          ((feedWindow constNone ⟨(), [], 0⟩ w).2 ≠ [] ↔
            2 * ((⟨(), [], 0⟩ : SVState Unit).buffer.length + w.length) = 256000))) :=
  have h0 : InvSV (⟨(), [], 0⟩ : SVState Unit) := ⟨rfl, by norm_num [MAX_SPEECH_MS], ⟨0, rfl⟩⟩
  ⟨h0, feed_buffer_invariant constNone ⟨(), [], 0⟩ (List.replicate 512 0) h0⟩

end Parakeet
